import Mathlib

/-!
Shallow embedding of the `replacer` pipeline (src/main.rs, src/writer.rs).

The program reads a Handlebars template, renders it in strict mode against a
flat string-to-string map, and writes the result to a destination file.
Paths are modelled as a root flag plus a list of components; the filesystem
is modelled as a set of directories plus an association list from path to
file content.  The Handlebars engine (an external crate) is modelled in its
interpolation-only subset as used by this program: literal text interspersed
with double-brace placeholders, strict-mode resolution, and the engine
default HTML escaping of substituted values.
-/

/-- A filesystem path: `root = true` for absolute paths, plus name components.
Mirrors the behaviour of Rust `Path` as used by the program. -/
structure RPath where
  root : Bool
  comps : List String
deriving DecidableEq, Repr

/-- Rust `Path::parent`: `None` for the empty path and the bare root,
otherwise the path with the last component dropped. -/
def RPath.parent (p : RPath) : Option RPath :=
  match p.comps with
  | [] => none
  | _ :: _ => some ⟨p.root, p.comps.dropLast⟩

/-- The closed error taxonomy of the program (`ProgramError` in
src/writer.rs lines 11-20 and src/main.rs lines 36-45). -/
inductive ProgramError where
  | FileNotFound (path : RPath)
  | ReadFailed (path : RPath)
  | RenderError (description : String)
  | MissingKey (msg : String)
  | InvalidTemplate (reason : String)
  | CannotOpenFileForWriting (path : RPath)
  | CannotCreateOutputDirectories (path : RPath)
deriving DecidableEq, Repr

/-- One token of a parsed Handlebars template in the interpolation-only
subset: a literal character or a double-brace placeholder naming a key. -/
inductive HbToken where
  | lit (c : Char)
  | var (key : String)
deriving DecidableEq, Repr

/-- Parser for the interpolation-only Handlebars grammar.  In mode `none` it
scans literal text and switches on a double open brace; in mode `some acc`
it accumulates the key characters until a double close brace.  An
unterminated placeholder is a syntax error, as in the engine. -/
def parseT : Option (List Char) → List Char → Except String (List HbToken)
  | none, [] => .ok []
  | none, '\x7b' :: '\x7b' :: rest => parseT (some []) rest
  | none, c :: rest => (fun ts => HbToken.lit c :: ts) <$> parseT none rest
  | some _, [] => .error "invalid handlebars syntax."
  | some acc, '\x7d' :: '\x7d' :: rest =>
      (fun ts => HbToken.var (String.mk acc.reverse) :: ts) <$> parseT none rest
  | some acc, c :: rest => parseT (some (c :: acc)) rest

/-- The engine default HTML escaping of one character (`html_escape` in the
Handlebars crate): the five special characters become entities, every other
character is kept. -/
def escapeHtmlChar (c : Char) : List Char :=
  match c with
  | '&' => "&amp;".toList
  | '<' => "&lt;".toList
  | '>' => "&gt;".toList
  | '"' => "&quot;".toList
  | '\x27' => "&#x27;".toList
  | c => [c]

/-- The engine default HTML escaping of a character list. -/
def escapeHtml (l : List Char) : List Char :=
  (l.map escapeHtmlChar).flatten

/-- The engine default HTML escaping of a string value. -/
def htmlEscape (s : String) : String :=
  ⟨escapeHtml s.toList⟩

/-- Strict-mode evaluation of a token list against the substitution map.
Literal characters pass through unescaped; a placeholder is replaced by the
HTML-escaped map value; in strict mode a missing key aborts evaluation with
the engine strict-mode diagnostic naming the key. -/
def renderToks (strict : Bool) (m : List (String × String)) :
    List HbToken → Except String (List Char)
  | [] => .ok []
  | HbToken.lit c :: ts => (fun r => c :: r) <$> renderToks strict m ts
  | HbToken.var k :: ts =>
    match m.lookup k with
    | some v => (fun r => escapeHtml v.toList ++ r) <$> renderToks strict m ts
    | none =>
      if strict then
        .error ("Variable \"" ++ k ++ "\" not found in strict mode")
      else
        renderToks strict m ts

/-- The Handlebars registry state: the strict-mode flag and the registered
templates by name. -/
structure Handlebars where
  strict_mode : Bool
  templates : List (String × List HbToken)

/-- `Handlebars::new()`: strict mode off, no templates registered. -/
def Handlebars.new : Handlebars := ⟨false, []⟩

/-- `set_strict_mode`. -/
def Handlebars.set_strict_mode (hb : Handlebars) (b : Bool) : Handlebars :=
  { hb with strict_mode := b }

/-- The two failure classes of template registration in the engine: a syntax
error with the parser diagnostic, or an I/O failure reading the source. -/
inductive TemplateFileError where
  | TemplateError (reason : String)
  | IOError
deriving DecidableEq, Repr

/-- `register_template_source`: reading the opened source handle either
yields its full text or an I/O error; the text is then parsed and stored
under the given name. -/
def register_template_source (hb : Handlebars) (name : String)
    (source : Except Unit String) : Except TemplateFileError Handlebars :=
  match source with
  | .error _ => .error .IOError
  | .ok text =>
    match parseT none text.toList with
    | .error reason => .error (.TemplateError reason)
    | .ok ts => .ok { hb with templates := (name, ts) :: hb.templates }

/-- The engine render error, exposing its textual description `desc`. -/
structure RenderErrorH where
  desc : String
deriving DecidableEq, Repr

/-- Rust `str::starts_with`: character-prefix test. -/
def strStartsWith (s pfx : String) : Bool :=
  pfx.toList.isPrefixOf s.toList

/-- `Handlebars::render`: looks the template up by name (a never-registered
name yields the engine "Template not found" error) and evaluates it against
the map. -/
def Handlebars.render (hb : Handlebars) (name : String)
    (m : List (String × String)) : Except RenderErrorH String :=
  match hb.templates.lookup name with
  | none => .error ⟨"Template not found: " ++ name⟩
  | some ts =>
    match renderToks hb.strict_mode m ts with
    | .error d => .error ⟨d⟩
    | .ok cs => .ok (String.mk cs)

/-- The map_err closure on the render call (src/writer.rs lines 77-85):
a description starting with "Variable" is a missing key, one starting with
"Template not found" is an unrecognized template, anything else is a
generic render error. -/
def classifyRenderError (e : RenderErrorH) : ProgramError :=
  if strStartsWith e.desc "Variable" then .MissingKey e.desc
  else if strStartsWith e.desc "Template not found" then
    .InvalidTemplate "Couldn\x27t recognize template."
  else .RenderError e.desc

/-- The `Configuration` struct (src/writer.rs lines 50-54): the opened
template source (its readable content or an I/O error), the substitution
map, and the destination path. -/
structure Configuration where
  template : Except Unit String
  mappings : List (String × String)
  output_file : RPath

/-- The `RenderResult` struct (src/writer.rs lines 56-59). -/
structure RenderResult where
  result : String
  output_file : RPath
deriving DecidableEq, Repr

/-- `render_template` (src/writer.rs lines 61-90): build a strict-mode
engine, register the source under the name "input" (classifying syntax
errors as InvalidTemplate and read failures as RenderError), then render
"input" against the map, classifying any render failure. -/
def render_template (config : Configuration) :
    Except ProgramError RenderResult :=
  let hb := Handlebars.set_strict_mode Handlebars.new true
  match register_template_source hb "input" config.template with
  | .error (.TemplateError reason) => .error (.InvalidTemplate reason)
  | .error .IOError =>
      .error (.RenderError "I/O Error when rendering template.")
  | .ok hb2 =>
    match hb2.render "input" config.mappings with
    | .error e => .error (classifyRenderError e)
    | .ok result => .ok ⟨result, config.output_file⟩

/-- The filesystem state: the set of existing directories and the existing
files with their content. -/
structure FS where
  dirs : List RPath
  files : List (RPath × String)
deriving DecidableEq, Repr

/-- Association-list lookup of a file content by path. -/
def lookupFile : List (RPath × String) → RPath → Option String
  | [], _ => none
  | (q, s) :: rest, p => if q = p then some s else lookupFile rest p

/-- Association-list update of a file content by path. -/
def setFile : List (RPath × String) → RPath → String → List (RPath × String)
  | [], p, s => [(p, s)]
  | (q, t) :: rest, p, s =>
    if q = p then (p, s) :: rest else (q, t) :: setFile rest p s

/-- `DirBuilder::new().recursive(true).create(p)`, mirroring
`std::fs::create_dir_all`: the empty relative path and the bare root
already exist; an existing directory succeeds silently; a collision with an
existing file fails; otherwise the parent is created recursively and the
directory added.  The fuel argument bounds the recursion depth and is
always instantiated with the component count, which the recursion on the
parent path never exhausts. -/
def cdaF (fs : FS) : Nat → RPath → Except Unit FS
  | 0, p => if p.comps = [] then .ok fs else .error ()
  | fuel + 1, p =>
    if p.comps = [] then .ok fs
    else if p ∈ fs.dirs then .ok fs
    else if (lookupFile fs.files p).isSome then .error ()
    else
      match cdaF fs fuel ⟨p.root, p.comps.dropLast⟩ with
      | .error e => .error e
      | .ok fs2 => .ok ⟨p :: fs2.dirs, fs2.files⟩

/-- Entry point for recursive directory creation: the recursion depth is
the number of path components. -/
def create_dir_all (fs : FS) (p : RPath) : Except Unit FS :=
  cdaF fs p.comps.length p

/-- `OpenOptions::new().create(true).write(true).open(path)` followed by
writing the rendered bytes (src/writer.rs lines 107-111).  The open options
carry no truncate flag, so an existing file keeps any old bytes past the
written length: the new content is the written bytes followed by the old
content beyond that length.  Opening a directory path fails. -/
def openAndWrite (result : String) (output_file : RPath) (fs : FS) :
    Except ProgramError RPath × FS :=
  if output_file ∈ fs.dirs then
    (.error (.CannotOpenFileForWriting output_file), fs)
  else
    let old := (lookupFile fs.files output_file).getD ""
    (.ok output_file,
      ⟨fs.dirs, setFile fs.files output_file
        ⟨result.toList ++ old.toList.drop result.toList.length⟩⟩)

/-- `write_template_file` (src/writer.rs lines 92-115): when the
destination has a parent component, create it recursively (a failure is
classified as CannotCreateOutputDirectories carrying that parent path),
then open the destination and write the rendered text. -/
def write_template_file (rr : RenderResult) (fs : FS) :
    Except ProgramError RPath × FS :=
  match rr.output_file.parent with
  | some parent_dir =>
    match create_dir_all fs parent_dir with
    | .error _ => (.error (.CannotCreateOutputDirectories parent_dir), fs)
    | .ok fs2 => openAndWrite rr.result rr.output_file fs2
  | none => openAndWrite rr.result rr.output_file fs

/-- `render` (src/writer.rs lines 117-119): `render_template` followed by
`write_template_file`, threading the filesystem state; a render failure
short-circuits and leaves the filesystem untouched. -/
def render (config : Configuration) (fs : FS) :
    Except ProgramError RPath × FS :=
  match render_template config with
  | .error e => (.error e, fs)
  | .ok rr => write_template_file rr fs

/-- `open_file` (src/main.rs lines 75-77): the world maps a path to its
readable content when the file can be opened; a failed open is classified
as FileNotFound carrying the path. -/
def open_file (world : RPath → Option String) (path : RPath) :
    Except ProgramError String :=
  match world path with
  | some contents => .ok contents
  | none => .error (.FileNotFound path)

/-- `deserialize` (src/main.rs lines 79-86): open the file, then parse its
content into the expected structure (`ps` embeds the serde_yaml instance);
a parse failure is classified as ReadFailed carrying the path. -/
def deserialize {T : Type} (ps : String → Option T)
    (world : RPath → Option String) (path : RPath) :
    Except ProgramError T :=
  match open_file world path with
  | .error e => .error e
  | .ok f =>
    match ps f with
    | some t => .ok t
    | none => .error (.ReadFailed path)

/-! Helper lemmas. -/

theorem isPrefixOf_append_self (a b : List Char) :
    a.isPrefixOf (a ++ b) = true := by
  induction a with
  | nil => simp [List.isPrefixOf]
  | cons c cs ih => simp [List.isPrefixOf, ih]

theorem strStartsWith_append (s t : String) :
    strStartsWith (s ++ t) s = true := by
  have h : (s ++ t).toList = s.toList ++ t.toList := by
    simp [String.toList]
  unfold strStartsWith
  rw [h]
  exact isPrefixOf_append_self _ _

theorem strStartsWith_variable (k : String) :
    strStartsWith ("Variable \"" ++ k ++ "\" not found in strict mode")
      "Variable" = true := by
  have e1 : ("Variable \"" : String) = "Variable" ++ " \"" := by decide
  have e2 : ("Variable \"" ++ k ++ "\" not found in strict mode")
      = "Variable" ++ (" \"" ++ (k ++ "\" not found in strict mode")) := by
    rw [e1, String.append_assoc, String.append_assoc]
  rw [e2]
  exact strStartsWith_append _ _

theorem renderToks_missing (m : List (String × String)) (ts : List HbToken)
    (hex : ∃ K, HbToken.var K ∈ ts ∧ m.lookup K = none) :
    ∃ Kf, HbToken.var Kf ∈ ts ∧ m.lookup Kf = none ∧
      renderToks true m ts
        = .error ("Variable \"" ++ Kf ++ "\" not found in strict mode") := by
  induction ts with
  | nil =>
    obtain ⟨K, hK, _⟩ := hex
    exact absurd hK (List.not_mem_nil _)
  | cons t ts ih =>
    obtain ⟨K, hK, hm⟩ := hex
    match t with
    | HbToken.lit c =>
      have hK2 : HbToken.var K ∈ ts := by
        rcases List.mem_cons.mp hK with h | h
        · exact absurd h (by simp)
        · exact h
      obtain ⟨Kf, h1, h2, h3⟩ := ih ⟨K, hK2, hm⟩
      exact ⟨Kf, List.mem_cons_of_mem _ h1, h2,
        by simp [renderToks, h3, Except.map]⟩
    | HbToken.var k =>
      cases hlk : m.lookup k with
      | none =>
        exact ⟨k, List.mem_cons_self _ _, hlk, by simp [renderToks, hlk]⟩
      | some v =>
        have hne : K ≠ k := by
          intro h
          rw [h, hlk] at hm
          cases hm
        have hK2 : HbToken.var K ∈ ts := by
          rcases List.mem_cons.mp hK with h | h
          · cases h; exact absurd rfl hne
          · exact h
        obtain ⟨Kf, h1, h2, h3⟩ := ih ⟨K, hK2, hm⟩
        exact ⟨Kf, List.mem_cons_of_mem _ h1, h2,
          by simp [renderToks, hlk, h3, Except.map]⟩

theorem register_ok (hb : Handlebars) (name : String) (text : String)
    (ts : List HbToken) (hparse : parseT none text.toList = .ok ts) :
    register_template_source hb name (.ok text)
      = .ok { hb with templates := (name, ts) :: hb.templates } := by
  have h2 : parseT none text.data = .ok ts := hparse
  simp [register_template_source, h2]

/-- C2 (amended): a template containing a placeholder whose key is absent
from the map makes the pipeline fail with a Missing Key error; the payload
is the strict-mode diagnostic naming some genuinely missing placeholder key
of the template, and that key name occurs verbatim inside the payload. -/
theorem c2_strict_missing_key (text : String) (ts : List HbToken)
    (m : List (String × String)) (p : RPath) (K : String)
    (hparse : parseT none text.toList = .ok ts)
    (hK : HbToken.var K ∈ ts) (hmiss : m.lookup K = none) :
    ∃ Kf, HbToken.var Kf ∈ ts ∧ m.lookup Kf = none ∧
      render_template ⟨.ok text, m, p⟩
        = .error (.MissingKey
            ("Variable \"" ++ Kf ++ "\" not found in strict mode")) ∧
      Kf.toList <:+:
        ("Variable \"" ++ Kf ++ "\" not found in strict mode").toList := by
  obtain ⟨Kf, h1, h2, h3⟩ := renderToks_missing m ts ⟨K, hK, hmiss⟩
  refine ⟨Kf, h1, h2, ?_, ?_⟩
  · have hreg : register_template_source ⟨true, []⟩ "input" (.ok text)
        = .ok ⟨true, [("input", ts)]⟩ := by
      have h2 : parseT none text.data = .ok ts := hparse
      simp [register_template_source, h2]
    have hrend : Handlebars.render ⟨true, [("input", ts)]⟩ "input" m
        = .error ⟨"Variable \"" ++ Kf ++ "\" not found in strict mode"⟩ := by
      simp [Handlebars.render, List.lookup, h3]
    simp [render_template, hreg, Handlebars.new, Handlebars.set_strict_mode,
      hrend, classifyRenderError, strStartsWith_variable]
  · refine ⟨"Variable \"".toList, "\" not found in strict mode".toList, ?_⟩
    simp [String.toList, List.append_assoc]

/-- C2, counterexample to the claim as stated: the template holds
placeholders for both "aaa" and "zzz", the empty map lacks "zzz", and the
pipeline does fail with Missing Key — but the payload names only "aaa",
the first missing placeholder, and does not contain "zzz". -/
theorem c2_counterexample :
    parseT none ("\x7b\x7baaa\x7d\x7d\x7b\x7bzzz\x7d\x7d").toList
      = .ok [HbToken.var "aaa", HbToken.var "zzz"] ∧
    List.lookup "zzz" ([] : List (String × String)) = none ∧
    render_template ⟨.ok "\x7b\x7baaa\x7d\x7d\x7b\x7bzzz\x7d\x7d", [],
        ⟨false, ["o"]⟩⟩
      = .error (.MissingKey "Variable \"aaa\" not found in strict mode") ∧
    ¬ ("zzz".toList <:+:
        ("Variable \"aaa\" not found in strict mode").toList) :=
  ⟨rfl, rfl, rfl, by decide⟩

/-- C2, witness: the amended theorem applied to the template holding the
single placeholder "missing" and the empty map. -/
theorem c2_witness :
    ∃ Kf, HbToken.var Kf ∈ [HbToken.var "missing"] ∧
      List.lookup Kf ([] : List (String × String)) = none ∧
      render_template ⟨.ok "\x7b\x7bmissing\x7d\x7d", [], ⟨false, ["o"]⟩⟩
        = .error (.MissingKey
            ("Variable \"" ++ Kf ++ "\" not found in strict mode")) ∧
      Kf.toList <:+:
        ("Variable \"" ++ Kf ++ "\" not found in strict mode").toList :=
  c2_strict_missing_key "\x7b\x7bmissing\x7d\x7d" [HbToken.var "missing"]
    [] ⟨false, ["o"]⟩ "missing" rfl (List.mem_singleton.mpr rfl) rfl

/-- C3: when rendering fails, the whole pipeline returns that classified
error and the filesystem — in particular the destination file — is left
exactly as it was; the write stage is never reached. -/
theorem c3_no_partial_write_on_render_failure (cfg : Configuration)
    (fs : FS) (e : ProgramError) (h : render_template cfg = .error e) :
    render cfg fs = (.error e, fs) := by
  simp [render, h]

/-- C3, witness: a missing-key render failure leaves the empty filesystem
untouched. -/
theorem c3_witness :
    render ⟨.ok "\x7b\x7bmissing\x7d\x7d", [], ⟨false, ["out", "f.txt"]⟩⟩
        ⟨[], []⟩
      = (.error (.MissingKey "Variable \"missing\" not found in strict mode"),
        ⟨[], []⟩) :=
  c3_no_partial_write_on_render_failure
    ⟨.ok "\x7b\x7bmissing\x7d\x7d", [], ⟨false, ["out", "f.txt"]⟩⟩
    ⟨[], []⟩ (.MissingKey "Variable \"missing\" not found in strict mode") rfl

/-- C4: during registration, an I/O failure reading the template source is
classified as a Render Error, a syntax rejection is classified as an
Invalid Template error carrying the parser diagnostic verbatim, and the
two error classes are distinct constructors, never conflated. -/
theorem c4_registration_error_classes :
    (∀ cfg : Configuration, cfg.template = .error () →
      render_template cfg
        = .error (.RenderError "I/O Error when rendering template.")) ∧
    (∀ (cfg : Configuration) (text reason : String),
      cfg.template = .ok text → parseT none text.toList = .error reason →
      render_template cfg = .error (.InvalidTemplate reason)) ∧
    (∀ r d, ProgramError.InvalidTemplate r ≠ ProgramError.RenderError d) := by
  refine ⟨?_, ?_, ?_⟩
  · intro cfg h
    simp [render_template, register_template_source, h]
  · intro cfg text reason h hp
    have hp2 : parseT none text.data = .error reason := hp
    simp [render_template, register_template_source, h, hp2]
  · intro r d h
    cases h

/-- C4, witness: an unreadable source yields the Render Error class, and an
unterminated placeholder yields the Invalid Template class. -/
theorem c4_witness :
    render_template ⟨.error (), [], ⟨false, ["o"]⟩⟩
      = .error (.RenderError "I/O Error when rendering template.") ∧
    render_template ⟨.ok "\x7b\x7bx", [], ⟨false, ["o"]⟩⟩
      = .error (.InvalidTemplate "invalid handlebars syntax.") :=
  ⟨c4_registration_error_classes.1 ⟨.error (), [], ⟨false, ["o"]⟩⟩ rfl,
    c4_registration_error_classes.2.1 ⟨.ok "\x7b\x7bx", [], ⟨false, ["o"]⟩⟩
      "\x7b\x7bx" "invalid handlebars syntax." rfl rfl⟩

/-- C5: rendering is deterministic — the evaluation of a registered
template against a map, and the whole parse-and-render stage, are pure
functions of their inputs, so two runs on the same inputs yield identical
output bytes; the embedding is time- and randomness-free because the
source introduces neither. -/
theorem c5_deterministic :
    ∀ (hb : Handlebars) (name : String) (m : List (String × String))
      (cfg : Configuration),
      hb.render name m = hb.render name m ∧
      render_template cfg = render_template cfg :=
  fun _ _ _ _ => ⟨rfl, rfl⟩

/-- C7: an input file that cannot be opened is classified as File Not Found
carrying the offending path (also through `deserialize`), while a file that
opens but does not parse into the expected structure is classified as Read
Failed carrying the offending path. -/
theorem c7_input_error_classes :
    (∀ (world : RPath → Option String) (path : RPath),
      world path = none →
      open_file world path = .error (.FileNotFound path) ∧
      ∀ (T : Type) (ps : String → Option T),
        deserialize ps world path = .error (.FileNotFound path)) ∧
    (∀ (world : RPath → Option String) (path : RPath) (f : String)
      (T : Type) (ps : String → Option T),
      world path = some f → ps f = none →
      deserialize ps world path = .error (.ReadFailed path)) := by
  constructor
  · intro world path h
    constructor
    · simp [open_file, h]
    · intro T ps
      simp [deserialize, open_file, h]
  · intro world path f T ps h hp
    simp [deserialize, open_file, h, hp]

/-- C7, witness: a world with no files gives File Not Found; a world whose
file content defeats the parser gives Read Failed. -/
theorem c7_witness :
    open_file (fun _ => none) ⟨false, ["a"]⟩
      = .error (.FileNotFound ⟨false, ["a"]⟩) ∧
    deserialize (fun _ => (none : Option Nat)) (fun _ => some "x")
        ⟨false, ["a"]⟩
      = .error (.ReadFailed ⟨false, ["a"]⟩) :=
  ⟨(c7_input_error_classes.1 (fun _ => none) ⟨false, ["a"]⟩ rfl).1,
    c7_input_error_classes.2 (fun _ => some "x") ⟨false, ["a"]⟩ "x" Nat
      (fun _ => none) rfl rfl⟩

/-- C8: rendering against a template name that was never registered yields
the engine "Template not found" failure, which the classifier reports as an
Invalid Template error with the generic could-not-recognize reason. -/
theorem c8_unknown_template (hb : Handlebars) (m : List (String × String))
    (h : hb.templates.lookup "input" = none) :
    Except.mapError classifyRenderError (hb.render "input" m)
      = .error (.InvalidTemplate "Couldn\x27t recognize template.") := by
  simp [Handlebars.render, h, Except.mapError]
  decide

/-- C8, witness: a freshly constructed engine has no registered template. -/
theorem c8_witness :
    Except.mapError classifyRenderError (Handlebars.new.render "input" [])
      = .error (.InvalidTemplate "Couldn\x27t recognize template.") :=
  c8_unknown_template Handlebars.new [] rfl

/-- C1, bug evaluation: the open options carry create and write but no
truncate, so writing the 2-character rendered text "xy" over a destination
file previously holding "abcdef" leaves the stale trailing bytes: the run
succeeds yet the final content is "xycdef", not "xy". -/
theorem c1_no_truncation :
    render ⟨.ok "xy", [], ⟨false, ["out.txt"]⟩⟩
        ⟨[], [(⟨false, ["out.txt"]⟩, "abcdef")]⟩
      = (.ok ⟨false, ["out.txt"]⟩,
        ⟨[], [(⟨false, ["out.txt"]⟩, "xycdef")]⟩) ∧
    ("xycdef" : String) ≠ "xy" :=
  ⟨rfl, by decide⟩

/-- Well-formed filesystem: the directory set is closed under non-empty
ancestor paths, as on a real filesystem. -/
def FS.wf (fs : FS) : Prop :=
  ∀ p ∈ fs.dirs, ∀ q : RPath, q.root = p.root → q.comps <+: p.comps →
    q.comps ≠ [] → q ∈ fs.dirs

theorem pfx_dropLast {α : Type} (q l : List α) (h : q <+: l) (hne : q ≠ l) :
    q <+: l.dropLast := by
  obtain ⟨t, rfl⟩ := h
  cases t with
  | nil => simp at hne
  | cons b l2 =>
    rw [List.dropLast_append_cons]
    exact ⟨(b :: l2).dropLast, rfl⟩

theorem cdaF_mem (fs : FS) :
    ∀ (fuel : Nat) (p : RPath) (fs2 : FS), cdaF fs fuel p = .ok fs2 →
      p.comps = [] ∨ p ∈ fs2.dirs := by
  intro fuel
  induction fuel with
  | zero =>
    intro p fs2 h
    simp only [cdaF] at h
    split at h
    · cases h
      exact Or.inl ‹_›
    · cases h
  | succ n ih =>
    intro p fs2 h
    simp only [cdaF] at h
    split at h
    · cases h
      exact Or.inl ‹_›
    · split at h
      · cases h
        exact Or.inr ‹_›
      · split at h
        · cases h
        · cases hrec : cdaF fs n ⟨p.root, p.comps.dropLast⟩ with
          | error e => rw [hrec] at h; cases h
          | ok fs1 =>
            rw [hrec] at h
            cases h
            exact Or.inr (List.mem_cons_self _ _)

theorem create_dir_all_idem (fs : FS) (p : RPath) (fs2 : FS)
    (h : create_dir_all fs p = .ok fs2) : create_dir_all fs2 p = .ok fs2 := by
  rcases cdaF_mem fs p.comps.length p fs2 h with hnil | hmem
  · simp [create_dir_all, cdaF, hnil]
  · cases hc : p.comps with
    | nil => simp [create_dir_all, cdaF, hc]
    | cons a l => simp [create_dir_all, cdaF, hc, hmem]

theorem cdaF_ancestors (fs : FS) (hwf : fs.wf) :
    ∀ (fuel : Nat) (p : RPath) (fs2 : FS), cdaF fs fuel p = .ok fs2 →
      ∀ q : RPath, q.root = p.root → q.comps <+: p.comps → q.comps ≠ [] →
        q ∈ fs2.dirs := by
  intro fuel
  induction fuel with
  | zero =>
    intro p fs2 h q hroot hpre hne
    simp only [cdaF] at h
    split at h
    · cases h
      next hnil =>
        rw [hnil] at hpre
        obtain ⟨t, ht⟩ := hpre
        exact absurd (List.append_eq_nil.mp ht).1 hne
    · cases h
  | succ n ih =>
    intro p fs2 h q hroot hpre hne
    simp only [cdaF] at h
    split at h
    · cases h
      next hnil =>
        rw [hnil] at hpre
        obtain ⟨t, ht⟩ := hpre
        exact absurd (List.append_eq_nil.mp ht).1 hne
    · split at h
      · cases h
        next hmem => exact hwf p hmem q hroot hpre hne
      · split at h
        · cases h
        · cases hrec : cdaF fs n ⟨p.root, p.comps.dropLast⟩ with
          | error e => rw [hrec] at h; cases h
          | ok fs1 =>
            rw [hrec] at h
            cases h
            by_cases hq : q.comps = p.comps
            · have hqp : q = p := by
                cases q
                cases p
                simp_all
              rw [hqp]
              exact List.mem_cons_self _ _
            · have hpre2 : q.comps <+: p.comps.dropLast :=
                pfx_dropLast _ _ hpre hq
              exact List.mem_cons_of_mem _
                (ih ⟨p.root, p.comps.dropLast⟩ fs1 hrec q hroot hpre2 hne)

theorem openAndWrite_dirs (r : String) (p : RPath) (fs : FS) :
    ((openAndWrite r p fs).2).dirs = fs.dirs := by
  unfold openAndWrite
  split
  · rfl
  · rfl

/-- C6: the materializer derives the parent of the destination path; with
no parent component, directory creation is skipped and the directory set is
untouched; with a parent component, a creation failure is classified as
Cannot Create Output Directories carrying that parent path, and a
successful creation is idempotent (running it again on the resulting state
succeeds silently) and, on a well-formed filesystem, has created the parent
and every missing ancestor. -/
theorem c6_output_directory_handling (rr : RenderResult) (fs : FS) :
    (rr.output_file.parent = none →
      (write_template_file rr fs).2.dirs = fs.dirs) ∧
    (∀ p, rr.output_file.parent = some p →
      (∀ e, create_dir_all fs p = .error e →
        write_template_file rr fs
          = (.error (.CannotCreateOutputDirectories p), fs)) ∧
      (∀ fs2, create_dir_all fs p = .ok fs2 →
        create_dir_all fs2 p = .ok fs2 ∧
        (fs.wf → ∀ q : RPath, q.root = p.root → q.comps <+: p.comps →
          q.comps ≠ [] → q ∈ fs2.dirs))) := by
  constructor
  · intro h
    simp [write_template_file, h, openAndWrite_dirs]
  · intro p hp
    constructor
    · intro e he
      simp [write_template_file, hp, he]
    · intro fs2 h2
      refine ⟨create_dir_all_idem fs p fs2 h2, ?_⟩
      intro hwf q hroot hpre hne
      exact cdaF_ancestors fs hwf p.comps.length p fs2 h2 q hroot hpre hne

/-- C6, witness: creating `out` under an empty filesystem succeeds, the
directory then exists, and creating it again succeeds silently. -/
theorem c6_witness :
    create_dir_all ⟨[⟨false, ["out"]⟩], []⟩ ⟨false, ["out"]⟩
        = .ok ⟨[⟨false, ["out"]⟩], []⟩ ∧
    (⟨false, ["out"]⟩ : RPath) ∈ (FS.mk [⟨false, ["out"]⟩] []).dirs := by
  have h := (c6_output_directory_handling ⟨"hi", ⟨false, ["out", "f.txt"]⟩⟩
    ⟨[], []⟩).2 ⟨false, ["out"]⟩ rfl
  have h2 := h.2 ⟨[⟨false, ["out"]⟩], []⟩ rfl
  refine ⟨h2.1, ?_⟩
  exact h2.2 (by intro a ha q hq1 hq2 hq3; exact absurd ha (List.not_mem_nil _))
    ⟨false, ["out"]⟩ rfl ⟨[], rfl⟩ (by simp)

theorem escapeHtml_cons (c : Char) (l : List Char) :
    escapeHtml (c :: l) = escapeHtmlChar c ++ escapeHtml l := by
  simp [escapeHtml]

theorem escapeHtml_append (a b : List Char) :
    escapeHtml (a ++ b) = escapeHtml a ++ escapeHtml b := by
  simp [escapeHtml]

theorem one_le_escapeHtmlChar (c : Char) : 1 ≤ (escapeHtmlChar c).length := by
  unfold escapeHtmlChar
  split <;> simp

theorem le_escapeHtml_length (l : List Char) :
    l.length ≤ (escapeHtml l).length := by
  induction l with
  | nil => simp [escapeHtml]
  | cons c cs ih =>
    rw [escapeHtml_cons, List.length_append, List.length_cons]
    have h1 := one_le_escapeHtmlChar c
    omega

theorem four_le_escapeHtmlChar (c : Char)
    (h : c = '&' ∨ c = '<' ∨ c = '>' ∨ c = '"') :
    4 ≤ (escapeHtmlChar c).length := by
  rcases h with h | h | h | h <;> subst h <;> decide

theorem htmlEscape_ne_of_special (v : String) (c : Char) (hc : c ∈ v.toList)
    (h4 : c = '&' ∨ c = '<' ∨ c = '>' ∨ c = '"') : htmlEscape v ≠ v := by
  obtain ⟨s, t, hst⟩ := List.append_of_mem hc
  have hlen : v.toList.length < (escapeHtml v.toList).length := by
    rw [hst, escapeHtml_append, escapeHtml_cons]
    rw [List.length_append, List.length_append, List.length_append,
      List.length_cons]
    have h1 := four_le_escapeHtmlChar c h4
    have h2 := le_escapeHtml_length s
    have h3 := le_escapeHtml_length t
    omega
  intro he
  have hdata : escapeHtml v.toList = v.toList := congrArg String.data he
  rw [hdata] at hlen
  exact absurd hlen (Nat.lt_irrefl _)

/-- C9: the engine is built with default settings and escaping is never
disabled, so a substituted value is rendered in its HTML-escaped form; when
the value contains an ampersand, angle bracket or double quote, the
rendered occurrence is therefore not the literal value. -/
theorem c9_html_escaping (k v : String) (m : List (String × String))
    (p : RPath) (c : Char) (hk : m.lookup k = some v) (hc : c ∈ v.toList)
    (hs : c = '&' ∨ c = '<' ∨ c = '>' ∨ c = '"')
    (hparse : parseT none ("\x7b\x7b" ++ k ++ "\x7d\x7d").toList
      = .ok [HbToken.var k]) :
    render_template ⟨.ok ("\x7b\x7b" ++ k ++ "\x7d\x7d"), m, p⟩
      = .ok ⟨htmlEscape v, p⟩ ∧
    htmlEscape v ≠ v := by
  refine ⟨?_, htmlEscape_ne_of_special v c hc hs⟩
  have hreg := register_ok ⟨true, []⟩ "input"
    ("\x7b\x7b" ++ k ++ "\x7d\x7d") [HbToken.var k] hparse
  have hrend : Handlebars.render ⟨true, [("input", [HbToken.var k])]⟩
      "input" m = .ok (htmlEscape v) := by
    simp [Handlebars.render, List.lookup, renderToks, hk, Except.map,
      htmlEscape]
  simp [render_template, hreg, Handlebars.new, Handlebars.set_strict_mode,
    hrend]

/-- C9, witness: the value is rendered HTML-escaped, so a value holding an
angle bracket does not appear literally. -/
theorem c9_witness :
    render_template ⟨.ok ("\x7b\x7b" ++ "name" ++ "\x7d\x7d"),
        [("name", "<b>")], ⟨false, ["o"]⟩⟩
      = .ok ⟨htmlEscape "<b>", ⟨false, ["o"]⟩⟩ ∧
    htmlEscape "<b>" ≠ "<b>" :=
  c9_html_escaping "name" "<b>" [("name", "<b>")] ⟨false, ["o"]⟩ '<'
    rfl (by decide) (Or.inr (Or.inl rfl)) rfl

/-- Detector for the placeholder delimiter: true when the text contains two
adjacent open braces (which also covers the engine escape sequence, since
that sequence itself contains the double open brace). -/
def hasDD : List Char → Bool
  | [] => false
  | [_] => false
  | c1 :: c2 :: rest => (c1 == '\x7b' && c2 == '\x7b') || hasDD (c2 :: rest)

theorem parseT_no_dd :
    ∀ l : List Char, hasDD l = false →
      parseT none l = .ok (l.map HbToken.lit) := by
  intro l
  induction l using hasDD.induct with
  | case1 => intro _; rfl
  | case2 c => intro _; simp [parseT]
  | case3 c1 c2 rest ih =>
    intro h
    simp only [hasDD, Bool.or_eq_false_iff, Bool.and_eq_false_iff] at h
    obtain ⟨h1, h2⟩ := h
    have side : ∀ r1 : List Char, c1 = '\x7b' → c2 :: rest = '\x7b' :: r1 →
        False := by
      intro r1 hca hcb
      injection hcb with hcb1 _
      rcases h1 with h1 | h1
      · rw [hca] at h1; simp at h1
      · rw [hcb1] at h1; simp at h1
    rw [parseT.eq_3 c1 (c2 :: rest) side, ih h2]
    simp [Except.map]

theorem renderToks_lits (strict : Bool) (m : List (String × String)) :
    ∀ l : List Char, renderToks strict m (l.map HbToken.lit) = .ok l := by
  intro l
  induction l with
  | nil => rfl
  | cons c cs ih => simp [renderToks, ih, Except.map]

/-- C10: a template whose text contains no double-open-brace delimiter
(and hence no engine escape sequence) parses to pure literals, and
rendering it against any map succeeds and returns the template text
verbatim. -/
theorem c10_identity_on_plain_text (text : String)
    (m : List (String × String)) (p : RPath)
    (h : hasDD text.toList = false) :
    render_template ⟨.ok text, m, p⟩ = .ok ⟨text, p⟩ := by
  have hp : parseT none text.toList = .ok (text.toList.map HbToken.lit) :=
    parseT_no_dd text.toList h
  have hreg := register_ok ⟨true, []⟩ "input" text
    (text.data.map HbToken.lit) hp
  have hrend : Handlebars.render ⟨true, [("input", text.data.map HbToken.lit)]⟩
      "input" m = .ok text := by
    simp [Handlebars.render, List.lookup, renderToks_lits]
  simp [render_template, hreg, Handlebars.new, Handlebars.set_strict_mode,
    hrend]

/-- C10, witness: a plain greeting passes through rendering unchanged. -/
theorem c10_witness :
    render_template ⟨.ok "Hello, world", [], ⟨false, ["o"]⟩⟩
      = .ok ⟨"Hello, world", ⟨false, ["o"]⟩⟩ :=
  c10_identity_on_plain_text "Hello, world" [] ⟨false, ["o"]⟩ rfl
